import Mathlib

set_option maxRecDepth 8192

/-!
# Verification of the markdown-viewer extension's async rendering core

This file gives a shallow embedding, in Lean 4, of the asynchronous task
scheduler, HTML sanitizer, SVG post-processing pass, cache proxy and
display-width computations of the markdown-viewer browser extension
(content script, together with its older variant), and proves the
specified properties about them.

Conventions used throughout:
* JavaScript strings are modelled as Lean `String`/`List Char` (all inputs
  of interest are ASCII, so UTF-16 index arithmetic coincides with
  character-list indexing);
* the single-threaded event loop of the scheduler is modelled by an
  explicit fuel-indexed step function, with the external status flips of
  `fetching` tasks described by a per-task flip time (`flipAt`/`flipTo`),
  time advancing by one unit per 100 ms poll wait;
* fallible operations return `Option`/`Except`; a thrown-and-caught
  JavaScript exception is an `Except.error` that the catching context
  turns into its fallback value.
-/

namespace MarkdownViewer

/-! ## Task scheduler (content script `asyncTask` / `processAsyncTasks`)

A task in the global `asyncTaskQueue` carries a status among `'ready'`,
`'fetching'` and `'error'`.  Tasks created over embedded data start
`'ready'`; tasks awaiting an out-of-band fetch start `'fetching'` and are
flipped to `'ready'` or `'error'` by the fetch's continuation.  We model
that external flip by giving each task the time `flipAt` at which its
in-flight fetch settles and the status `flipTo` it settles to; a task
whose initial status is not `'fetching'` never changes status. -/

inductive TStatus where
  | fetching
  | ready
  | error
deriving DecidableEq, Repr

structure ATask where
  id : Nat
  initStatus : TStatus
  flipAt : Nat
  flipTo : TStatus
  /-- whether `task.callback(task.data)` throws when invoked -/
  throws : Bool
deriving DecidableEq, Repr

/-- The status field of a task as observed at poll-time `t`. -/
def statusAt (t : Nat) (a : ATask) : TStatus :=
  match a.initStatus with
  | .fetching => if a.flipAt ≤ t then a.flipTo else .fetching
  | s => s

/-- `task.status === 'ready' || task.status === 'error'` — the predicate of
the `findIndex` call inside `processAsyncTasks`. -/
def drainable (t : Nat) (a : ATask) : Bool :=
  statusAt t a = .ready || statusAt t a = .error

/-- `asyncTaskQueue.findIndex(task => task.status === 'ready' || task.status === 'error')`. -/
def findReadyIndex (t : Nat) (q : List ATask) : Option Nat :=
  q.findIdx? (drainable t)

/-- The task removed by `asyncTaskQueue.splice(readyTaskIndex, 1)[0]`. -/
def nextDrained (t : Nat) (q : List ATask) : Option ATask :=
  (findReadyIndex t q).bind (fun i => q[i]?)

/-- What draining one task leaves at its placeholder. -/
inductive DrainResult where
  | rendered
  | errorReport
deriving DecidableEq, Repr

/-- Draining one task: an `'error'`-status task gets an inline error `<pre>`;
a `'ready'` task runs its callback, and a throwing callback is caught and
also produces the inline error `<pre>`. -/
def drainOutcome (t : Nat) (a : ATask) : DrainResult :=
  if statusAt t a = .error then .errorReport
  else if a.throws then .errorReport
  else .rendered

/-- State observed when `processAsyncTasks` returns: the final value of
`completedTasks`, the final queue, and the log of per-task drain outcomes
in drain order. -/
structure SchedulerResult where
  completed : Nat
  queue : List ATask
  log : List (Nat × DrainResult)
deriving Repr

/-- The `while (asyncTaskQueue.length > 0)` loop of `processAsyncTasks`,
with explicit fuel.  One fuel unit is one loop iteration: either a drain
of the earliest `'ready'`/`'error'` task (incrementing `completedTasks`),
or — when every queued task is `'fetching'` — a 100 ms wait, modelled as
`t + 1`.  The `break` branch for a non-empty queue with no `'fetching'`
task is unreachable for well-formed statuses but is embedded faithfully. -/
def processLoop : Nat → Nat → List ATask → Nat → List (Nat × DrainResult) → SchedulerResult
  | 0, _, q, completed, log => ⟨completed, q, log.reverse⟩
  | fuel + 1, t, q, completed, log =>
    if q.isEmpty then ⟨completed, q, log.reverse⟩
    else
      match findReadyIndex t q with
      | some i =>
        match q[i]? with
        | some a =>
          processLoop fuel t (q.eraseIdx i) (completed + 1) ((a.id, drainOutcome t a) :: log)
        | none => ⟨completed, q, log.reverse⟩
      | none =>
        if (q.filter (fun a => statusAt t a = .fetching)).isEmpty then
          ⟨completed, q, log.reverse⟩
        else
          processLoop fuel (t + 1) q completed log

/-- `processAsyncTasks` run to completion with the given fuel: early return
on the empty queue, otherwise the drain loop starting at time 0 with
`completedTasks = 0`. -/
def processAsyncTasks (fuel : Nat) (q : List ATask) : SchedulerResult :=
  if q.isEmpty then ⟨0, q, []⟩
  else processLoop fuel 0 q 0 []

/-- The last poll time at which some in-flight fetch of the queue settles. -/
def flipBound (q : List ATask) : Nat :=
  q.foldr (fun a m => max a.flipAt m) 0

/-- Every `'fetching'` task eventually transitions to `'ready'` or
`'error'` — the hypothesis of the drain-completeness claim. -/
def eventuallySettles (q : List ATask) : Prop :=
  ∀ a ∈ q, a.initStatus = TStatus.fetching → a.flipTo ≠ TStatus.fetching

/-- A five-task queue in which the third task's callback throws; the
second and fifth tasks start `'fetching'` and settle at poll time 1. -/
def exampleQueue5 : List ATask :=
  [⟨1, TStatus.ready, 0, TStatus.ready, false⟩,
   ⟨2, TStatus.fetching, 1, TStatus.ready, false⟩,
   ⟨3, TStatus.ready, 0, TStatus.ready, true⟩,
   ⟨4, TStatus.ready, 0, TStatus.ready, false⟩,
   ⟨5, TStatus.fetching, 1, TStatus.error, false⟩]

/-! ## HTML sanitizer (`sanitizeNodeTree` / `sanitizeElementAttributes` /
`isSafeUrl` / `isSafeSrcset`)

JavaScript strings are modelled as `List Char` (`JStr`), with executable
re-implementations of the string primitives the source uses (`trim`,
`toLowerCase`, `toUpperCase`, `startsWith`, `split`); all inputs of
interest are ASCII, where these agree with the JS semantics.  DOM nodes
are modelled by `HNode`; an element carries its tag name, its attribute
list (name/value pairs, in document order) and its children.  The
browser's `new URL(value, document.baseURI)` is modelled by scheme
extraction with fallback to the base document's protocol, which is passed
around as `baseProtocol` (the URL constructor only throws for opaque
bases, which do not occur here, so the model is total). -/

/-- JavaScript string, as a list of UTF-16-ish characters. -/
abbrev JStr := List Char

/-- JS whitespace (`\s` and `String.prototype.trim`), restricted to the
common code points. -/
def wsChar (c : Char) : Bool :=
  c = ' ' || c = '\t' || c = '\n' || c = '\r' || c = '\x0b' || c = '\x0c'
    || c = '\u00a0'

/-- ASCII `toLowerCase`. -/
def lowerChar (c : Char) : Char :=
  if 'A' ≤ c && c ≤ 'Z' then Char.ofNat (c.toNat + 32) else c

/-- ASCII `toUpperCase`. -/
def upperChar (c : Char) : Char :=
  if 'a' ≤ c && c ≤ 'z' then Char.ofNat (c.toNat - 32) else c

def jLower (s : JStr) : JStr := s.map lowerChar

def jUpper (s : JStr) : JStr := s.map upperChar

/-- `String.prototype.trim`. -/
def jTrim (s : JStr) : JStr :=
  ((s.dropWhile wsChar).reverse.dropWhile wsChar).reverse

/-- `String.prototype.startsWith`. -/
def jStartsWith (s pre : JStr) : Bool := pre.isPrefixOf s

/-- `String.prototype.split(sep)` for a one-character separator. -/
def splitOnChar (sep : Char) : JStr → List JStr
  | [] => [[]]
  | c :: rest =>
    let r := splitOnChar sep rest
    if c = sep then [] :: r
    else
      match r with
      | [] => [[c]]
      | h :: t => (c :: h) :: t

inductive HNode where
  | element (tag : JStr) (attrs : List (JStr × JStr)) (children : List HNode)
  | text (s : JStr)
  | comment (s : JStr)

/-- `new Set(['SCRIPT', 'IFRAME', 'OBJECT', 'EMBED', 'AUDIO', 'VIDEO'])`. -/
def blockedTags : List JStr :=
  ["SCRIPT".data, "IFRAME".data, "OBJECT".data, "EMBED".data, "AUDIO".data,
   "VIDEO".data]

/-- The `urlAttributes` list of `sanitizeElementAttributes`. -/
def urlAttributes : List JStr :=
  ["src".data, "href".data, "xlink:href".data, "action".data,
   "formaction".data, "poster".data, "data".data, "srcset".data]

/-- Scheme of an absolute URL string: a leading letter followed by
letters/digits/`+`/`-`/`.` up to a `:`; `none` when the string has no such
prefix (and hence parses as a relative URL). -/
def schemeOf (s : JStr) : Option JStr :=
  let pre := s.takeWhile (· ≠ ':')
  if pre.length = s.length then none
  else if pre.length = 0 then none
  else if pre.head?.elim false Char.isAlpha
      && pre.all (fun c => c.isAlphanum || c = '+' || c = '-' || c = '.') then
    some pre
  else none

/-- Model of `new URL(value, document.baseURI).protocol`: the lowercased
scheme of an absolute URL, else the base document's protocol. -/
def urlProtocol (baseProtocol : JStr) (s : JStr) : JStr :=
  match schemeOf s with
  | some sch => jLower sch ++ ":".data
  | none => baseProtocol

/-- The scheme allow-list of `isSafeUrl`. -/
def safeProtocols : List JStr :=
  ["http:".data, "https:".data, "mailto:".data, "tel:".data,
   "chrome-extension:".data, "file:".data]

/-- `isSafeUrl(url)` from the content script. -/
def isSafeUrl (baseProtocol : JStr) (url : JStr) : Bool :=
  if url = [] then true
  else
    let trimmed := jTrim url
    if trimmed = [] || jStartsWith trimmed "#".data then true
    else
      let lower := jLower trimmed
      if jStartsWith lower "javascript:".data || jStartsWith lower "vbscript:".data
          || jStartsWith lower "data:text/javascript".data then false
      else if jStartsWith lower "data:".data then
        jStartsWith lower "data:image/".data
          || jStartsWith lower "data:application/pdf".data
      else
        safeProtocols.contains (urlProtocol baseProtocol trimmed)

/-- `candidate.trim().split(/\s+/)[0]` — the URL part of one srcset entry. -/
def srcsetUrlPart (candidate : JStr) : JStr :=
  (jTrim candidate).takeWhile (fun c => ¬ wsChar c)

/-- `isSafeSrcset(value)` from the content script. -/
def isSafeSrcset (baseProtocol : JStr) (value : JStr) : Bool :=
  if value = [] then true
  else (splitOnChar ',' value).all fun candidate =>
    isSafeUrl baseProtocol (srcsetUrlPart candidate)

/-- The per-attribute body of the `forEach` in `sanitizeElementAttributes`:
`none` means the attribute is removed, `some` gives the surviving
name/value pair (possibly rewritten to `#`). -/
def sanitizeAttr (baseProtocol : JStr) (attr : JStr × JStr) :
    Option (JStr × JStr) :=
  let attrName := jLower attr.1
  if jStartsWith attrName "on".data then none
  else if urlAttributes.contains attrName then
    if attrName = "srcset".data then
      if isSafeSrcset baseProtocol attr.2 then some attr else none
    else if attrName = "href".data || attrName = "xlink:href".data then
      if jTrim attr.2 = [] then none else some (attr.1, "#".data)
    else if isSafeUrl baseProtocol attr.2 then some attr else none
  else some attr

/-- `sanitizeElementAttributes` applied to an element's attribute list. -/
def sanitizeAttrs (baseProtocol : JStr) (attrs : List (JStr × JStr)) :
    List (JStr × JStr) :=
  attrs.filterMap (sanitizeAttr baseProtocol)

/-- Attribute serialization used by `serializeNode`. -/
def serializeAttrsStr (attrs : List (JStr × JStr)) : JStr :=
  attrs.foldl (fun acc a => acc ++ " ".data ++ a.1 ++ "=\"".data ++ a.2 ++ "\"".data) []

mutual

/-- Model of `Element.outerHTML` serialization for an `HNode`. -/
def serializeNode : HNode → JStr
  | .element tag attrs children =>
    "<".data ++ tag ++ serializeAttrsStr attrs ++ ">".data ++ serializeFragment children
      ++ "</".data ++ tag ++ ">".data
  | .text s => s
  | .comment s => "<!--".data ++ s ++ "-->".data

/-- Serialization of a list of sibling nodes (`template.innerHTML`). -/
def serializeFragment : List HNode → JStr
  | [] => []
  | n :: rest => serializeNode n ++ serializeFragment rest

end

/-- The visible inline notice substituted for a blocked element:
`<pre class="blocked-html-warning">` whose text quotes the removed markup,
truncated at 500 characters. -/
def warningNode (node : HNode) (tagName : JStr) : HNode :=
  let originalMarkup := serializeNode node
  let truncatedMarkup :=
    if originalMarkup.length > 500 then originalMarkup.take 500 ++ "...".data
    else originalMarkup
  HNode.element "pre".data
    [("class".data, "blocked-html-warning".data),
     ("style".data, "background: #fee; border-left: 4px solid #f00; padding: 10px; font-size: 12px; white-space: pre-wrap;".data)]
    [HNode.text ("Blocked insecure <".data ++ jLower tagName
      ++ "> element removed.\n\n".data ++ truncatedMarkup)]

/-- `sanitizeNodeTree` as a transformation of a sibling list: comments are
removed, text survives, a blocked element is replaced whole by its warning
notice, and any other element survives with sanitized attributes and
recursively sanitized children.  (The stack-based traversal of the source
visits exactly these nodes and performs exactly these mutations; the final
tree is the same.) -/
def sanitizeChildren (baseProtocol : JStr) : List HNode → List HNode
  | [] => []
  | HNode.comment _ :: rest => sanitizeChildren baseProtocol rest
  | HNode.text s :: rest => HNode.text s :: sanitizeChildren baseProtocol rest
  | HNode.element tag attrs kids :: rest =>
    if blockedTags.contains (jUpper tag) then
      warningNode (HNode.element tag attrs kids) (jUpper tag)
        :: sanitizeChildren baseProtocol rest
    else
      HNode.element tag (sanitizeAttrs baseProtocol attrs)
          (sanitizeChildren baseProtocol kids)
        :: sanitizeChildren baseProtocol rest

/-- `sanitizeRenderedHtml` with the browser's parse of the input string
supplied as the `parsed` fragment: sanitize the tree, then serialize. -/
def sanitizeRenderedHtml (baseProtocol : JStr) (parsed : List HNode) : JStr :=
  serializeFragment (sanitizeChildren baseProtocol parsed)

/-- Is this node a blocked (active-content) element? -/
def isBlockedElem : HNode → Bool
  | .element tag _ _ => blockedTags.contains (jUpper tag)
  | _ => false

mutual

/-- Does a blocked element occur anywhere in this node? -/
def nodeHasBlocked : HNode → Bool
  | .element tag _ kids => blockedTags.contains (jUpper tag) || fragmentHasBlocked kids
  | _ => false

/-- Does a blocked element occur anywhere in this fragment? -/
def fragmentHasBlocked : List HNode → Bool
  | [] => false
  | n :: rest => nodeHasBlocked n || fragmentHasBlocked rest

end

mutual

/-- Does any element in this node carry an attribute whose lowercased name
begins with `on`? -/
def nodeHasOnAttr : HNode → Bool
  | .element _ attrs kids =>
    attrs.any (fun a => jStartsWith (jLower a.1) "on".data) || fragmentHasOnAttr kids
  | _ => false

/-- Fragment version of `nodeHasOnAttr`. -/
def fragmentHasOnAttr : List HNode → Bool
  | [] => false
  | n :: rest => nodeHasOnAttr n || fragmentHasOnAttr rest

end


/-! ## Extraction pass for raw HTML nodes (`remarkHtmlToPng`)

The repository contains two variants of the content script.  The current
one (the sanitizing variant) queues a raw HTML node unless it is blank,
consists solely of `<br>` tags, or sanitizes to whitespace; the older
variant gates on a root tag (`<div`/`<table`/`<svg`) plus a minimum
length.  Both `visit` callbacks are embedded as functions from the node's
`value` to `Option` of the task payload (`some code` means the node is
replaced by a placeholder and a deferred task carrying `{ code }` is
registered; `none` means the node is left untouched).  The browser parse
performed by `template.innerHTML = html` inside `sanitizeRenderedHtml` is
supplied as the `parsedTrimmed` argument. -/

/-- `sanitizedHtml.replace(/\s+/g, '')`. -/
def stripWs (s : JStr) : JStr := s.filter (fun c => ¬ wsChar c)

/-- Fuel-indexed loop consuming `(?:\s|&nbsp;)*` case-insensitively.  Every
iteration consumes at least one character, so fuel = input length is
always sufficient. -/
def skipBrTrailLoop : Nat → JStr → JStr
  | 0, s => s
  | _ + 1, [] => []
  | fuel + 1, c :: rest =>
    if wsChar c then skipBrTrailLoop fuel rest
    else if jStartsWith (jLower (c :: rest)) "&nbsp;".data then
      skipBrTrailLoop fuel (rest.drop 5)
    else c :: rest

/-- Consume `(?:\s|&nbsp;)*`. -/
def skipBrTrail (s : JStr) : JStr := skipBrTrailLoop s.length s

/-- Consume `\s*\/?>` after a `<br`. -/
def matchBrClose (s : JStr) : Option JStr :=
  match s.dropWhile wsChar with
  | '/' :: '>' :: rest => some rest
  | '>' :: rest => some rest
  | _ => none

/-- Consume one `<br\s*\/?>(?:\s|&nbsp;)*` unit (case-insensitively). -/
def matchBrUnit (s : JStr) : Option JStr :=
  match s with
  | c1 :: c2 :: c3 :: rest =>
    if c1 = '<' && lowerChar c2 = 'b' && lowerChar c3 = 'r' then
      match matchBrClose rest with
      | some rest2 => some (skipBrTrail rest2)
      | none => none
    else none
  | _ => none

/-- Fuel-indexed repetition of `matchBrUnit`; a successful unit consumes at
least four characters, so fuel = input length is always sufficient. -/
def brOnlyLoop : Nat → JStr → Bool
  | 0, _ => false
  | fuel + 1, s =>
    match matchBrUnit s with
    | some [] => true
    | some rest => brOnlyLoop fuel rest
    | none => false

/-- The test `/^(?:<br\s*\/?>(?:\s|&nbsp;)*)+$/i.test(htmlContent)`. -/
def brOnly (s : JStr) : Bool := brOnlyLoop s.length s

/-- The gate of the older variant's `remarkHtmlToPng` (also the condition
stated by the specification): trimmed content starts with a structurally
significant root tag and exceeds 100 characters. -/
def significantHtml_v2 (value : JStr) : Bool :=
  let t := jTrim value
  (jStartsWith t "<div".data || jStartsWith t "<table".data
      || jStartsWith t "<svg".data)
    && decide (t.length > 100)

/-- The older variant's `visit` callback on a raw HTML node: queue the
node's original value iff the root-tag/length gate passes. -/
def transformHtmlNode_v2 (value : JStr) : Option JStr :=
  let htmlContent := jTrim value
  if (jStartsWith htmlContent "<div".data || jStartsWith htmlContent "<table".data
      || jStartsWith htmlContent "<svg".data)
      && decide (htmlContent.length > 100) then
    some value
  else none

/-- The current variant's `visit` callback on a raw HTML node: skip blank
content, skip `<br>`-only content, sanitize, and skip content whose
sanitized form is empty after whitespace collapse; otherwise queue the
sanitized markup. -/
def transformHtmlNode_v3 (baseProtocol : JStr) (value : JStr)
    (parsedTrimmed : List HNode) : Option JStr :=
  let htmlContent := jTrim value
  if htmlContent = [] then none
  else if brOnly htmlContent then none
  else
    let sanitizedHtml := sanitizeRenderedHtml baseProtocol parsedTrimmed
    if sanitizedHtml = [] ∨ (stripWs sanitizedHtml).length ≤ 0 then none
    else some sanitizedHtml


/-! ## SVG post-processing pass (`processSvgImages`)

The pass scans the stringified markup for `<img … src="….svg" …>` tags,
replaces each match (in reverse document order) by an inline placeholder
span, and registers a deferred task per match.  A `data:` source is
decoded on the spot (`'ready'`); any other source starts an out-of-band
fetch (`'fetching'`).  `atob` and `decodeURIComponent` are modelled
symbolically by the `SvgContent` constructors — the claims only depend on
whether decoded content is in hand, never on the decoded bytes. -/

/-- Decoded inline SVG content. -/
inductive SvgContent where
  | fromBase64 (payload : JStr)
  | fromUrlEncoded (payload : JStr)
deriving DecidableEq, Repr

/-- `src.startsWith('data:') ? 'ready' : 'fetching'`. -/
def svgInitialStatus (src : JStr) : TStatus :=
  if jStartsWith src "data:".data then TStatus.ready else TStatus.fetching

/-- Strip a literal prefix, or fail. -/
def dropPrefix? (pre s : JStr) : Option JStr :=
  if pre.isPrefixOf s then some (s.drop pre.length) else none

/-- `(.+)$` in a JS regex without the `s`/`m` flags: the rest of the input,
which must be non-empty and contain no line terminator. -/
def dotPayloadOk (p : JStr) : Bool :=
  !p.isEmpty && p.all (fun c => !(c = '\n' || c = '\r' || c = '\u2028' || c = '\u2029'))

/-- `src.match(/^data:image\/svg\+xml;base64,(.+)$/)`, returning the
captured payload. -/
def svgBase64Payload (src : JStr) : Option JStr :=
  match dropPrefix? "data:image/svg+xml;base64,".data src with
  | some rest => if dotPayloadOk rest then some rest else none
  | none => none

/-- `src.match(/^data:image\/svg\+xml[;,](.+)$/)`, returning the captured
payload. -/
def svgUrlEncodedPayload (src : JStr) : Option JStr :=
  match dropPrefix? "data:image/svg+xml;".data src with
  | some rest => if dotPayloadOk rest then some rest else none
  | none =>
    match dropPrefix? "data:image/svg+xml,".data src with
    | some rest => if dotPayloadOk rest then some rest else none
    | none => none

/-- The `initialSvgContent` computation of `processSvgImages`: a `data:`
URL is decoded immediately (base64 form first, then URL-encoded form);
an unsupported `data:` format leaves the content `null`; non-`data:`
sources carry no initial content. -/
def svgInitialContent (src : JStr) : Option SvgContent :=
  if jStartsWith src "data:".data then
    match svgBase64Payload src with
    | some p => some (SvgContent.fromBase64 p)
    | none =>
      match svgUrlEncodedPayload src with
      | some p => some (SvgContent.fromUrlEncoded p)
      | none => none
  else none

/-- The async callback of an SVG task: with no `svgContent` in hand it
throws `'No SVG content available'` (caught by the scheduler and turned
into an inline error report); otherwise it invokes the renderer. -/
def svgTaskCallback (svgContent : Option SvgContent)
    (render : SvgContent → Except JStr Unit) : Except JStr Unit :=
  match svgContent with
  | none => Except.error "No SVG content available".data
  | some c => render c

/-- How a `'fetching'` SVG task's retrieval is started: `fetch` for
`http(s)` URLs, a `READ_LOCAL_FILE` runtime message otherwise. -/
inductive SvgFetchKind where
  | remote
  | localFile
deriving DecidableEq, Repr

def svgFetchKind (src : JStr) : Option SvgFetchKind :=
  if svgInitialStatus src = TStatus.fetching then
    some (if jStartsWith src "http://".data || jStartsWith src "https://".data
      then SvgFetchKind.remote else SvgFetchKind.localFile)
  else none

/-- One collected regex match of the SVG `<img>` pattern: its start offset
and the length of the full matched tag. -/
structure SvgMatch where
  index : Nat
  len : Nat
deriving DecidableEq, Repr

/-- `html.substring(0, m.index) + repl + html.substring(m.index + m.len)`. -/
def spliceAt (html : JStr) (m : SvgMatch) (repl : JStr) : JStr :=
  html.take m.index ++ repl ++ html.drop (m.index + m.len)

/-- The `for (let i = matches.length - 1; i >= 0; i--)` replacement loop of
`processSvgImages`: the matches are processed in the given order, each
splicing its placeholder into the current `html`. -/
def spliceReverse : JStr → List (SvgMatch × JStr) → JStr
  | html, [] => html
  | html, (m, r) :: rest => spliceReverse (spliceAt html m r) rest

/-- The substitution step of `processSvgImages`, applied to the match list
in document order (the source loop walks it from the last match to the
first, so the loop's processing order is the reverse). -/
def processSvgImagesSubst (html : JStr) (ms : List (SvgMatch × JStr)) : JStr :=
  spliceReverse html ms.reverse

/-- Well-formedness of a collected match list, as guaranteed by repeated
`regex.exec` with the `g` flag: matches are in ascending order, pairwise
non-overlapping, and within the input's bounds. -/
def validMatches : Nat → List (SvgMatch × JStr) → Nat → Bool
  | pos, [], n => pos ≤ n
  | pos, (m, _) :: rest, n =>
    decide (pos ≤ m.index) && validMatches (m.index + m.len) rest n

/-- The expected output shape: the input's segments outside the matches,
in order, with each match's span replaced by its placeholder. -/
def splicedSpec (html : JStr) : Nat → List (SvgMatch × JStr) → JStr
  | pos, [] => html.drop pos
  | pos, (m, r) :: rest =>
    (html.take m.index).drop pos ++ r ++ splicedSpec html (m.index + m.len) rest


/-! ## Background cache proxy (`BackgroundCacheManagerProxy`)

`get`/`set` forward a message to the background page via
`chrome.runtime.sendMessage` and wrap the exchange in `try`/`catch`.  The
possible outcomes of the exchange are: the promise rejects; it resolves
with no response object (so that touching `response.error` throws); or it
resolves with a response whose `error` field may be truthy. -/

/-- Outcome of `await chrome.runtime.sendMessage(...)`. -/
inductive RuntimeOutcome (α : Type) where
  | reject (msg : JStr)
  | resolve (resp : Option α)

/-- A cache-operation response object. -/
structure CacheResponse (V : Type) where
  error : Option JStr
  result : Option V
  success : Bool

/-- JS truthiness of the `error` field (`if (response.error)`). -/
def errorTruthy (e : Option JStr) : Bool :=
  match e with
  | some s => !s.isEmpty
  | none => false

/-- `BackgroundCacheManagerProxy.get`: a rejected exchange, a missing
response, or a truthy `response.error` all land in the `catch` and return
`null`; otherwise the call returns `response.result`. -/
def proxyGet {V : Type} (o : RuntimeOutcome (CacheResponse V)) : Option V :=
  match o with
  | .reject _ => none
  | .resolve none => none
  | .resolve (some r) => if errorTruthy r.error then none else r.result

/-- `BackgroundCacheManagerProxy.set`: the same failure cases return
`false`; otherwise the call returns `response.success`. -/
def proxySet {V : Type} (o : RuntimeOutcome (CacheResponse V)) : Bool :=
  match o with
  | .reject _ => false
  | .resolve none => false
  | .resolve (some r) => if errorTruthy r.error then false else r.success

/-- The exchange failed or reported an error. -/
def storageFailure {V : Type} (o : RuntimeOutcome (CacheResponse V)) : Prop :=
  match o with
  | .reject _ => True
  | .resolve none => True
  | .resolve (some r) => errorTruthy r.error = true

/-! ## Display width of spliced rasterization results

All three drain callbacks (mermaid, HTML block, SVG) size the spliced
`<img>` as `Math.round(pngResult.width / 4)`. -/

/-- JS `Math.round` (ties round toward `+∞`). -/
def jsRound (x : ℚ) : ℤ := ⌊x + 1 / 2⌋

/-- `Math.round(pngResult.width / 4)` in the mermaid drain callback. -/
def mermaidDisplayWidth (width : ℕ) : ℤ := jsRound ((width : ℚ) / 4)

/-- `Math.round(pngResult.width / 4)` in the HTML-block drain callback. -/
def htmlDisplayWidth (width : ℕ) : ℤ := jsRound ((width : ℚ) / 4)

/-- `Math.round(pngResult.width / 4)` in the SVG drain callback. -/
def svgDisplayWidth (width : ℕ) : ℤ := jsRound ((width : ℚ) / 4)


/-! ## Cache key generation (`calculateHash` / `generateKey`)

`calculateHash` UTF-8-encodes the content (`TextEncoder`), digests it with
SHA-256 (`crypto.subtle.digest('SHA-256', …)`), and prints the digest
bytes as lowercase two-digit hex.  SHA-256 is implemented here from
FIPS 180-4 over `Nat` with explicit mod-2^32 arithmetic; bytes are `Nat`
values below 256. -/

/-- UTF-8 encoding of one code point (`TextEncoder`). -/
def utf8EncodeChar (c : Char) : List Nat :=
  let n := c.toNat
  if n < 128 then [n]
  else if n < 2048 then
    [192 + n / 64, 128 + n % 64]
  else if n < 65536 then
    [224 + n / 4096, 128 + (n / 64) % 64, 128 + n % 64]
  else
    [240 + n / 262144, 128 + (n / 4096) % 64, 128 + (n / 64) % 64, 128 + n % 64]

def utf8Encode (s : JStr) : List Nat := s.flatMap utf8EncodeChar

/-- 2^32, the word modulus. -/
def M32 : Nat := 4294967296

def add32 (a b : Nat) : Nat := (a + b) % M32

/-- Right-rotation of a 32-bit word. -/
def rotr32 (x n : Nat) : Nat := (x / 2 ^ n + x % 2 ^ n * 2 ^ (32 - n)) % M32

def sigmaBig0 (x : Nat) : Nat := (rotr32 x 2) ^^^ (rotr32 x 13) ^^^ (rotr32 x 22)

def sigmaBig1 (x : Nat) : Nat := (rotr32 x 6) ^^^ (rotr32 x 11) ^^^ (rotr32 x 25)

def sigmaSmall0 (x : Nat) : Nat := (rotr32 x 7) ^^^ (rotr32 x 18) ^^^ (x / 8)

def sigmaSmall1 (x : Nat) : Nat := (rotr32 x 17) ^^^ (rotr32 x 19) ^^^ (x / 1024)

def chWord (x y z : Nat) : Nat := (x &&& y) ^^^ ((x ^^^ 4294967295) &&& z)

def majWord (x y z : Nat) : Nat := (x &&& y) ^^^ (x &&& z) ^^^ (y &&& z)

/-- The 64 SHA-256 round constants (FIPS 180-4 section 4.2.2, written in
decimal). -/
def K256 : List Nat :=
  [1116352408, 1899447441, 3049323471, 3921009573,
   961987163, 1508970993, 2453635748, 2870763221,
   3624381080, 310598401, 607225278, 1426881987,
   1925078388, 2162078206, 2614888103, 3248222580,
   3835390401, 4022224774, 264347078, 604807628,
   770255983, 1249150122, 1555081692, 1996064986,
   2554220882, 2821834349, 2952996808, 3210313671,
   3336571891, 3584528711, 113926993, 338241895,
   666307205, 773529912, 1294757372, 1396182291,
   1695183700, 1986661051, 2177026350, 2456956037,
   2730485921, 2820302411, 3259730800, 3345764771,
   3516065817, 3600352804, 4094571909, 275423344,
   430227734, 506948616, 659060556, 883997877,
   958139571, 1322822218, 1537002063, 1747873779,
   1955562222, 2024104815, 2227730452, 2361852424,
   2428436474, 2756734187, 3204031479, 3329325298]

/-- The initial SHA-256 hash state (FIPS 180-4 section 5.3.3, written in
decimal). -/
def H256 : List Nat :=
  [1779033703, 3144134277, 1013904242, 2773480762,
   1359893119, 2600822924, 528734635, 1541459225]

/-- Big-endian bytes of a number, `k` bytes wide. -/
def toBytesBE (k n : Nat) : List Nat :=
  (List.range k).reverse.map (fun i => n / 2 ^ (8 * i) % 256)

/-- SHA-256 message padding: `0x80`, zeros to 56 mod 64, then the bit
length as a 64-bit big-endian integer. -/
def padMessage (msg : List Nat) : List Nat :=
  msg ++ [128] ++ List.replicate ((119 - msg.length % 64) % 64) 0
    ++ toBytesBE 8 (8 * msg.length)

/-- Big-endian 32-bit words from bytes. -/
def bytesToWords : List Nat → List Nat
  | b0 :: b1 :: b2 :: b3 :: rest =>
    (b0 * 16777216 + b1 * 65536 + b2 * 256 + b3) :: bytesToWords rest
  | _ => []

/-- Extend the 16 block words to the 64-entry message schedule; each step
appends `σ1(w[i-2]) + w[i-7] + σ0(w[i-15]) + w[i-16]`. -/
def scheduleLoop : Nat → List Nat → List Nat
  | 0, w => w
  | k + 1, w =>
    let t := add32 (add32 (sigmaSmall1 (w.getD (w.length - 2) 0))
        (w.getD (w.length - 7) 0))
      (add32 (sigmaSmall0 (w.getD (w.length - 15) 0)) (w.getD (w.length - 16) 0))
    scheduleLoop k (w ++ [t])

/-- One SHA-256 round on the state `[a, b, c, d, e, f, g, h]`. -/
def compressStep (st : List Nat) (k w : Nat) : List Nat :=
  match st with
  | [a, b, c, d, e, f, g, h] =>
    let t1 := add32 h (add32 (sigmaBig1 e) (add32 (chWord e f g) (add32 k w)))
    let t2 := add32 (sigmaBig0 a) (majWord a b c)
    [add32 t1 t2, a, b, c, add32 d t1, e, f, g]
  | other => other

/-- Compress one 64-byte block into the running hash state. -/
def compressBlock (h : List Nat) (block : List Nat) : List Nat :=
  let w := scheduleLoop 48 (bytesToWords block)
  let st := (K256.zip w).foldl (fun st kw => compressStep st kw.1 kw.2) h
  (h.zip st).map (fun p => add32 p.1 p.2)

/-- Split into 64-byte blocks (fuel = input length always suffices). -/
def chunksLoop : Nat → List Nat → List (List Nat)
  | 0, _ => []
  | _ + 1, [] => []
  | fuel + 1, l => l.take 64 :: chunksLoop fuel (l.drop 64)

/-- The SHA-256 digest, as 32 bytes. -/
def sha256Bytes (msg : List Nat) : List Nat :=
  let padded := padMessage msg
  let blocks := chunksLoop padded.length padded
  (blocks.foldl compressBlock H256).flatMap (toBytesBE 4)

/-- One lowercase hex digit. -/
def hexDigit (n : Nat) : Char :=
  if n < 10 then Char.ofNat (48 + n) else Char.ofNat (87 + n)

/-- `b.toString(16).padStart(2, '0')` for a digest byte. -/
def byteToHex (b : Nat) : JStr := [hexDigit (b / 16), hexDigit (b % 16)]

/-- `BackgroundCacheManagerProxy.calculateHash`. -/
def calculateHash (text : JStr) : JStr :=
  (sha256Bytes (utf8Encode text)).flatMap byteToHex

/-- `BackgroundCacheManagerProxy.generateKey`:
`` `${hash}_${type}` ``. -/
def generateKey (content ktype : JStr) : JStr :=
  calculateHash content ++ "_".data ++ ktype

end MarkdownViewer

namespace MarkdownViewer

/-! Basic facts about the scheduler used by the claims. -/

theorem statusAt_cases (t : Nat) (a : ATask) :
    statusAt t a = .fetching ∨ statusAt t a = .ready ∨ statusAt t a = .error := by
  cases h : statusAt t a with
  | fetching => exact Or.inl rfl
  | ready => exact Or.inr (Or.inl rfl)
  | error => exact Or.inr (Or.inr rfl)

theorem drainable_iff_not_fetching (t : Nat) (a : ATask) :
    drainable t a = true ↔ statusAt t a ≠ .fetching := by
  unfold drainable
  rcases statusAt_cases t a with h | h | h <;> simp [h]

theorem statusAt_fetching_of_not_drainable {t : Nat} {a : ATask}
    (h : ¬ drainable t a = true) : statusAt t a = .fetching := by
  by_contra hne
  exact h ((drainable_iff_not_fetching t a).mpr hne)

/-- C1. In the scheduler's drain loop (`processAsyncTasks`), whenever at
least one queued task has status `'ready'` or `'error'`, the task drained
next is the earliest-registered task whose status is `'ready'` or
`'error'`; for a queue of one `'fetching'` task followed by one `'ready'`
task, the `'ready'` task is drained first; and a task whose status is
still `'fetching'` is never the one drained. -/
theorem scheduler_drains_earliest_ready :
    (∀ (t : Nat) (q : List ATask) (i : Nat), findReadyIndex t q = some i →
      ∃ a, q[i]? = some a ∧ drainable t a = true ∧
        ∀ j, j < i → ∀ b, q[j]? = some b → statusAt t b = TStatus.fetching)
    ∧ (∀ f r : ATask, statusAt 0 f = TStatus.fetching → statusAt 0 r = TStatus.ready →
        nextDrained 0 [f, r] = some r)
    ∧ (∀ (t : Nat) (q : List ATask) (a : ATask), nextDrained t q = some a →
        statusAt t a ≠ TStatus.fetching) := by
  have main : ∀ (t : Nat) (q : List ATask) (i : Nat), findReadyIndex t q = some i →
      ∃ a, q[i]? = some a ∧ drainable t a = true ∧
        ∀ j, j < i → ∀ b, q[j]? = some b → statusAt t b = TStatus.fetching := by
    intro t q i h
    unfold findReadyIndex at h
    rw [List.findIdx?_eq_some_iff_findIdx_eq] at h
    obtain ⟨hlen, hidx⟩ := h
    refine ⟨q[i], by simp, ?_, ?_⟩
    · have := @List.findIdx_getElem _ (drainable t) q (hidx ▸ hlen)
      simpa [hidx] using this
    · intro j hj b hb
      have hjlen : j < q.length := lt_trans hj hlen
      have : drainable t q[j] = false := List.not_of_lt_findIdx (hidx ▸ hj)
      have hb' : q[j] = b := by
        have := List.getElem?_eq_getElem hjlen
        rw [this] at hb
        exact Option.some.inj hb
      exact hb' ▸ statusAt_fetching_of_not_fetching_aux this
  refine ⟨main, ?_, ?_⟩
  · intro f r hf hr
    have h1 : drainable 0 f = false := by simp [drainable, hf]
    have h2 : drainable 0 r = true := by simp [drainable, hr]
    simp [nextDrained, findReadyIndex, List.findIdx?_cons, h1, h2]
  · intro t q a h
    unfold nextDrained at h
    obtain ⟨i, hi, hga⟩ := Option.bind_eq_some.mp h
    obtain ⟨b, hb, hd, _⟩ := main t q i hi
    rw [hb] at hga
    cases Option.some.inj hga
    exact (drainable_iff_not_fetching t a).mp hd
where
  statusAt_fetching_of_not_fetching_aux {t : Nat} {c : ATask}
      (h : drainable t c = false) : statusAt t c = TStatus.fetching :=
    statusAt_fetching_of_not_drainable (by simp [h])

theorem flipBound_le_iff {q : List ATask} {B : Nat} :
    flipBound q ≤ B ↔ ∀ a ∈ q, a.flipAt ≤ B := by
  induction q with
  | nil => simp [flipBound]
  | cons a l ih =>
    simp only [flipBound, List.foldr_cons, Nat.max_le, List.mem_cons]
    constructor
    · rintro ⟨h1, h2⟩ b (rfl | hb)
      · exact h1
      · exact (ih.mp h2) b hb
    · intro h
      exact ⟨h a (Or.inl rfl), ih.mpr (fun b hb => h b (Or.inr hb))⟩

theorem le_flipBound {q : List ATask} {a : ATask} (h : a ∈ q) :
    a.flipAt ≤ flipBound q :=
  (flipBound_le_iff.mp le_rfl) a h

theorem flipBound_eraseIdx_le (q : List ATask) (i : Nat) :
    flipBound (q.eraseIdx i) ≤ flipBound q :=
  flipBound_le_iff.mpr fun _ ha => le_flipBound ((q.eraseIdx_sublist i).mem ha)

theorem drainable_of_late {t : Nat} {a : ATask}
    (hWF : a.initStatus = TStatus.fetching → a.flipTo ≠ TStatus.fetching)
    (ht : a.flipAt ≤ t) : drainable t a = true := by
  rw [drainable_iff_not_fetching]
  unfold statusAt
  cases h : a.initStatus with
  | fetching => simpa [ht] using hWF h
  | ready => simp
  | error => simp

theorem drainOutcome_of_throws {t : Nat} {a : ATask} (h : a.throws = true) :
    drainOutcome t a = DrainResult.errorReport := by
  unfold drainOutcome
  split
  · rfl
  · simp [h]

/-- Log entries already accumulated survive to the final scheduler log. -/
theorem processLoop_log_mono :
    ∀ (fuel t : Nat) (q : List ATask) (c : Nat) (log : List (Nat × DrainResult))
      (e : Nat × DrainResult), e ∈ log → e ∈ (processLoop fuel t q c log).log := by
  intro fuel
  induction fuel with
  | zero =>
    intro t q c log e he
    simpa [processLoop] using he
  | succ n ih =>
    intro t q c log e he
    simp only [processLoop]
    by_cases hq : q.isEmpty
    · simpa [hq] using he
    · simp only [hq, Bool.false_eq_true, if_false]
      split
      · split
        · exact ih _ _ _ _ _ (List.mem_cons_of_mem _ he)
        · simpa using he
      · split
        · simpa using he
        · exact ih _ _ _ _ _ he

/-- Core induction for drain completeness: with enough fuel, the loop
empties the queue, counts every task, and logs an outcome for each. -/
theorem processLoop_drains_all :
    ∀ (fuel t : Nat) (q : List ATask) (completed : Nat)
      (log : List (Nat × DrainResult)),
      eventuallySettles q →
      (flipBound q + 1 - t) + q.length ≤ fuel →
      (processLoop fuel t q completed log).queue = [] ∧
      (processLoop fuel t q completed log).completed = completed + q.length ∧
      ∀ a ∈ q, ∃ res, (a.id, res) ∈ (processLoop fuel t q completed log).log ∧
        (a.throws = true → res = DrainResult.errorReport) := by
  intro fuel
  induction fuel with
  | zero =>
    intro t q completed log _ hfuel
    have hq : q.length = 0 := by omega
    have : q = [] := List.length_eq_zero.mp hq
    subst this
    simp [processLoop]
  | succ n ih =>
    intro t q completed log hWF hfuel
    by_cases hq : q.isEmpty
    · have : q = [] := List.isEmpty_iff.mp hq
      subst this
      simp [processLoop]
    · have hqne : q ≠ [] := fun h => hq (by simp [h])
      have hqlen : 1 ≤ q.length := List.length_pos.mpr hqne
      simp only [processLoop, hq, Bool.false_eq_true, if_false]
      split
      next i hfind =>
        split
        next a hget =>
          obtain ⟨hlen, ha⟩ := List.getElem?_eq_some_iff.mp hget
          have hlen' : (q.eraseIdx i).length = q.length - 1 := by
            rw [List.length_eraseIdx]
            simp [hlen]
          have hWF' : eventuallySettles (q.eraseIdx i) := fun b hb =>
            hWF b ((q.eraseIdx_sublist i).mem hb)
          have hfb : flipBound (q.eraseIdx i) ≤ flipBound q := flipBound_eraseIdx_le q i
          have hfuel' : (flipBound (q.eraseIdx i) + 1 - t) + (q.eraseIdx i).length ≤ n := by
            omega
          obtain ⟨h1, h2, h3⟩ := ih t (q.eraseIdx i) (completed + 1)
            ((a.id, drainOutcome t a) :: log) hWF' hfuel'
          refine ⟨h1, by omega, ?_⟩
          intro b hb
          obtain ⟨j, hj, hjb⟩ := List.getElem_of_mem hb
          by_cases hji : j = i
          · subst hji
            have hba : b = a := by rw [← hjb, ha]
            subst hba
            refine ⟨drainOutcome t b, ?_, fun hth => drainOutcome_of_throws hth⟩
            exact processLoop_log_mono _ _ _ _ _ _ (List.mem_cons_self _ _)
          · have hb' : b ∈ q.eraseIdx i :=
              List.mem_eraseIdx_iff_getElem.mpr ⟨j, hj, hji, hjb⟩
            exact h3 b hb'
        next hget =>
          exfalso
          have hi := hfind
          unfold findReadyIndex at hi
          rw [List.findIdx?_eq_some_iff_findIdx_eq] at hi
          rw [List.getElem?_eq_getElem hi.1] at hget
          exact Option.noConfusion hget
      next hfind =>
        have hall : ∀ a ∈ q, drainable t a = false := fun a ha =>
          List.findIdx?_eq_none_iff.mp hfind a ha
        obtain ⟨a0, q', hq_eq⟩ := List.exists_cons_of_ne_nil hqne
        have ha0mem : a0 ∈ q := hq_eq ▸ List.mem_cons_self _ _
        have ha0 : statusAt t a0 = TStatus.fetching :=
          statusAt_fetching_of_not_drainable (by simp [hall a0 ha0mem])
        split
        next hfilter =>
          exfalso
          have : a0 ∈ q.filter (fun a => statusAt t a = TStatus.fetching) :=
            List.mem_filter.mpr ⟨ha0mem, by simp [ha0]⟩
          rw [List.isEmpty_iff.mp hfilter] at this
          exact List.not_mem_nil _ this
        next hfilter =>
          have ht : t < flipBound q := by
            by_contra hle
            have : drainable t a0 = true :=
              drainable_of_late (hWF a0 ha0mem)
                (le_trans (le_flipBound ha0mem) (by omega))
            rw [hall a0 ha0mem] at this
            exact Bool.false_ne_true this
          exact ih (t + 1) q completed log hWF (by omega)

/-- C2. For every task queue in which each `'fetching'` task eventually
settles to `'ready'` or `'error'`, `processAsyncTasks` terminates with the
queue empty and the completed count equal to the initial total, even when
callbacks throw: every task is drained and logged, and a throwing task's
placeholder gets the inline error report while still being counted. -/
theorem scheduler_drain_completeness (q : List ATask)
    (hq : eventuallySettles q) :
    (processAsyncTasks (flipBound q + 1 + q.length) q).queue = [] ∧
    (processAsyncTasks (flipBound q + 1 + q.length) q).completed = q.length ∧
    ∀ a ∈ q, ∃ res, (a.id, res) ∈ (processAsyncTasks (flipBound q + 1 + q.length) q).log ∧
      (a.throws = true → res = DrainResult.errorReport) := by
  unfold processAsyncTasks
  by_cases h0 : q.isEmpty
  · have : q = [] := List.isEmpty_iff.mp h0
    subst this
    simp
  · simp only [h0, Bool.false_eq_true, if_false]
    have := processLoop_drains_all (flipBound q + 1 + q.length) 0 q 0 [] hq (by omega)
    simpa using this

/-- Witness for C2: the five-task queue with a throwing third task is fully
drained, fully counted, and the throwing task's placeholder carries the
inline error report. -/
theorem scheduler_drain_completeness_witness :
    (processAsyncTasks 7 exampleQueue5).queue = [] ∧
    (processAsyncTasks 7 exampleQueue5).completed = 5 ∧
    (3, DrainResult.errorReport) ∈ (processAsyncTasks 7 exampleQueue5).log := by
  have h := scheduler_drain_completeness exampleQueue5
    (by unfold eventuallySettles; decide)
  refine ⟨h.1, h.2.1, ?_⟩
  obtain ⟨res, hres, himp⟩ := h.2.2 ⟨3, TStatus.ready, 0, TStatus.ready, true⟩ (by decide)
  have : res = DrainResult.errorReport := himp rfl
  subst this
  exact hres

/-! Sanitizer lemmas and claims. -/

theorem sanitizeAttr_no_on {base : JStr} {a b : JStr × JStr}
    (h : sanitizeAttr base a = some b) :
    jStartsWith (jLower b.1) "on".data = false := by
  have hb1 : b.1 = a.1 ∧ jStartsWith (jLower a.1) "on".data = false := by
    simp only [sanitizeAttr] at h
    cases hOn : jStartsWith (jLower a.1) ("on".data) with
    | true => rw [hOn] at h; simp at h
    | false =>
      rw [hOn] at h
      simp only [Bool.false_eq_true, if_false] at h
      refine ⟨?_, rfl⟩
      split_ifs at h <;> (cases h; rfl)
  rw [hb1.1]
  exact hb1.2

theorem sanitizeAttrs_no_on (base : JStr) (attrs : List (JStr × JStr)) :
    (sanitizeAttrs base attrs).any (fun a => jStartsWith (jLower a.1) "on".data)
      = false := by
  induction attrs with
  | nil => rfl
  | cons a rest ih =>
    unfold sanitizeAttrs at ih ⊢
    rw [List.filterMap_cons]
    cases hsa : sanitizeAttr base a with
    | none => exact ih
    | some b => simp [List.any_cons, sanitizeAttr_no_on hsa, ih]

/-- C4. The sanitizer removes every script/iframe/object/embed/audio/video
element, replacing each one (at its position among its siblings) by the
visible `blocked-html-warning` notice rather than silently dropping it;
every surviving element stays in place with its `on…`-prefixed attributes
removed, so the sanitized tree contains no blocked element and no
event-handler attribute. -/
theorem sanitizer_blocks_active_content :
    (∀ (base : JStr) (ns : List HNode),
      fragmentHasBlocked (sanitizeChildren base ns) = false)
    ∧ (∀ (base : JStr) (pre post : List HNode) (tag : JStr)
        (attrs : List (JStr × JStr)) (kids : List HNode),
        blockedTags.contains (jUpper tag) = true →
        sanitizeChildren base (pre ++ HNode.element tag attrs kids :: post)
          = sanitizeChildren base pre
            ++ warningNode (HNode.element tag attrs kids) (jUpper tag)
              :: sanitizeChildren base post)
    ∧ (∀ (base : JStr) (pre post : List HNode) (tag : JStr)
        (attrs : List (JStr × JStr)) (kids : List HNode),
        blockedTags.contains (jUpper tag) = false →
        sanitizeChildren base (pre ++ HNode.element tag attrs kids :: post)
          = sanitizeChildren base pre
            ++ HNode.element tag (sanitizeAttrs base attrs)
                (sanitizeChildren base kids)
              :: sanitizeChildren base post)
    ∧ (∀ (base : JStr) (ns : List HNode),
      fragmentHasOnAttr (sanitizeChildren base ns) = false) := by
  refine ⟨?_, ?_, ?_, ?_⟩
  · intro base ns
    induction ns using sanitizeChildren.induct base with
    | case1 => simp [sanitizeChildren, fragmentHasBlocked]
    | case2 s rest ih => simpa [sanitizeChildren] using ih
    | case3 s rest ih =>
      simp [sanitizeChildren, fragmentHasBlocked, nodeHasBlocked, ih]
    | case4 tag attrs kids rest hb ih =>
      have hb' : jUpper tag ∈ blockedTags := by simpa using hb
      simp +decide [sanitizeChildren, hb', fragmentHasBlocked, nodeHasBlocked,
        warningNode, ih]
    | case5 tag attrs kids rest hb ihk ihr =>
      have hb' : jUpper tag ∉ blockedTags := by
        simpa using Bool.of_not_eq_true hb
      simp [sanitizeChildren, hb', fragmentHasBlocked, nodeHasBlocked, ihk, ihr]
  · intro base pre post tag attrs kids hblocked
    have hbm : jUpper tag ∈ blockedTags := by simpa using hblocked
    induction pre with
    | nil => simp [sanitizeChildren, hbm]
    | cons x rest ih =>
      cases x with
      | comment s => simpa [sanitizeChildren] using ih
      | text s => simp [sanitizeChildren, ih]
      | element t a k =>
        by_cases hx : jUpper t ∈ blockedTags <;>
          simp [sanitizeChildren, hx, ih]
  · intro base pre post tag attrs kids hblocked
    have hbm : jUpper tag ∉ blockedTags := by simpa using hblocked
    induction pre with
    | nil => simp [sanitizeChildren, hbm]
    | cons x rest ih =>
      cases x with
      | comment s => simpa [sanitizeChildren] using ih
      | text s => simp [sanitizeChildren, ih]
      | element t a k =>
        by_cases hx : jUpper t ∈ blockedTags <;>
          simp [sanitizeChildren, hx, ih]
  · intro base ns
    induction ns using sanitizeChildren.induct base with
    | case1 => simp [sanitizeChildren, fragmentHasOnAttr]
    | case2 s rest ih => simpa [sanitizeChildren] using ih
    | case3 s rest ih =>
      simp [sanitizeChildren, fragmentHasOnAttr, nodeHasOnAttr, ih]
    | case4 tag attrs kids rest hb ih =>
      have hb' : jUpper tag ∈ blockedTags := by simpa using hb
      simp +decide [sanitizeChildren, hb', fragmentHasOnAttr, nodeHasOnAttr,
        warningNode, ih]
    | case5 tag attrs kids rest hb ihk ihr =>
      have hb' : jUpper tag ∉ blockedTags := by
        simpa using Bool.of_not_eq_true hb
      have hattrs := sanitizeAttrs_no_on base attrs
      simp only [List.any_eq_false] at hattrs
      simp [sanitizeChildren, hb', fragmentHasOnAttr, nodeHasOnAttr, ihk, ihr]
      intro a b hmem
      simpa using hattrs (a, b) hmem

/-- Witness for C4: a `<script>` among siblings becomes the warning notice,
a surviving `<p onclick=… id=…>` keeps its place with `onclick` stripped. -/
theorem sanitizer_blocks_active_content_witness :
    sanitizeChildren "file:".data
        [HNode.text "hi".data,
         HNode.element "script".data [] [HNode.text "alert(1)".data],
         HNode.element "p".data [("onclick".data, "x()".data), ("id".data, "a".data)] []]
      = [HNode.text "hi".data,
         warningNode (HNode.element "script".data [] [HNode.text "alert(1)".data])
           "SCRIPT".data,
         HNode.element "p".data [("id".data, "a".data)] []] := by
  have h2 := sanitizer_blocks_active_content.2.1 "file:".data
    [HNode.text "hi".data]
    [HNode.element "p".data [("onclick".data, "x()".data), ("id".data, "a".data)] []]
    "script".data [] [HNode.text "alert(1)".data] (by decide)
  rw [show jUpper "script".data = "SCRIPT".data by decide] at h2
  show sanitizeChildren "file:".data
      ([HNode.text "hi".data] ++
        HNode.element "script".data [] [HNode.text "alert(1)".data] ::
          [HNode.element "p".data
            [("onclick".data, "x()".data), ("id".data, "a".data)] []])
    = _
  rw [h2]
  simp +decide [sanitizeChildren, sanitizeAttrs, sanitizeAttr]

/-- C3 counterexample: an `href` holding the allow-listed URL
`https://example.com` is NOT accepted unchanged — the sanitizer rewrites
every non-blank `href` to `#`. -/
theorem href_allowlist_counterexample :
    sanitizeAttrs "file:".data [("href".data, "https://example.com".data)]
      = [("href".data, "#".data)] ∧
    sanitizeAttrs "file:".data [("href".data, "https://example.com".data)]
      ≠ [("href".data, "https://example.com".data)] := by decide

/-- C3 (amended). A `javascript:` `href` is defused, but so is every other
non-blank `href` (including allow-listed `https:` URLs): both are rewritten
to `#`; a blank `href` is removed.  The scheme allow-list governs the other
URL attributes: a `javascript:` `src` is removed while an `https:` `src` is
accepted unchanged. -/
theorem sanitizer_url_attribute_policy :
    (∀ (base v : JStr), jTrim v ≠ [] →
      sanitizeAttrs base [("href".data, v)] = [("href".data, "#".data)])
    ∧ (∀ (base v : JStr), jTrim v = [] →
      sanitizeAttrs base [("href".data, v)] = [])
    ∧ (∀ base : JStr,
      sanitizeAttrs base [("src".data, "javascript:alert(1)".data)] = [])
    ∧ (∀ base : JStr,
      sanitizeAttrs base [("src".data, "https://example.com".data)]
        = [("src".data, "https://example.com".data)]) := by
  refine ⟨?_, ?_, ?_, ?_⟩
  · intro base v hv
    simp +decide [sanitizeAttrs, sanitizeAttr, hv]
  · intro base v hv
    simp +decide [sanitizeAttrs, sanitizeAttr, hv]
  · intro base
    simp +decide [sanitizeAttrs, sanitizeAttr, isSafeUrl]
  · intro base
    simp +decide [sanitizeAttrs, sanitizeAttr, isSafeUrl, urlProtocol, schemeOf]

/-- Witness for the amended C3: concrete `javascript:` and blank hrefs. -/
theorem sanitizer_url_attribute_policy_witness :
    sanitizeAttrs "file:".data [("href".data, "javascript:alert(1)".data)]
      = [("href".data, "#".data)] ∧
    sanitizeAttrs "file:".data [("href".data, "   ".data)] = [] :=
  ⟨sanitizer_url_attribute_policy.1 "file:".data "javascript:alert(1)".data (by decide),
   sanitizer_url_attribute_policy.2.1 "file:".data "   ".data (by decide)⟩

/-- Witness for C1: concrete two-task queue, `'fetching'` before `'ready'`. -/
theorem scheduler_drains_earliest_ready_witness :
    nextDrained 0 [⟨1, TStatus.fetching, 5, TStatus.ready, false⟩,
        ⟨2, TStatus.ready, 0, TStatus.ready, false⟩]
      = some ⟨2, TStatus.ready, 0, TStatus.ready, false⟩ :=
  scheduler_drains_earliest_ready.2.1
    ⟨1, TStatus.fetching, 5, TStatus.ready, false⟩
    ⟨2, TStatus.ready, 0, TStatus.ready, false⟩ (by decide) (by decide)


/-! Extraction-pass claims. -/

/-- C5 counterexample: in the current extraction pass a short raw HTML
node that does not start with `<div`/`<table`/`<svg` (here
`<em>hello world</em>`) IS converted into a deferred task and placeholder,
so the claimed root-tag/length gate does not hold of it. -/
theorem html_extraction_counterexample :
    (transformHtmlNode_v3 "file:".data "<em>hello world</em>".data
        [HNode.element "em".data [] [HNode.text "hello world".data]]).isSome = true
    ∧ significantHtml_v2 "<em>hello world</em>".data = false := by
  constructor
  · have hs : sanitizeChildren "file:".data
        [HNode.element "em".data [] [HNode.text "hello world".data]]
        = [HNode.element "em".data [] [HNode.text "hello world".data]] := by
      simp +decide [sanitizeChildren, sanitizeAttrs]
    simp +decide [transformHtmlNode_v3, sanitizeRenderedHtml, hs,
      serializeFragment, serializeNode, serializeAttrsStr]
  · decide

/-- C5 (amended). In the current content script a raw HTML tree node is
converted into a deferred task and placeholder iff its trimmed content is
non-empty, is not a run of `<br>` tags (with interleaved
whitespace/`&nbsp;`), and its sanitized form is non-empty after whitespace
collapse; the root-tag (`div`/`table`/`svg`) plus length-over-100 gate
exists only in the older variant of the extraction pass, where it holds
exactly as stated. -/
theorem html_extraction_gate :
    (∀ (base value : JStr) (parsed : List HNode),
      (transformHtmlNode_v3 base value parsed).isSome = true ↔
        (jTrim value ≠ [] ∧ brOnly (jTrim value) = false ∧
          stripWs (sanitizeRenderedHtml base parsed) ≠ []))
    ∧ (∀ value : JStr,
      (transformHtmlNode_v2 value).isSome = true ↔
        significantHtml_v2 value = true) := by
  constructor
  · intro base value parsed
    simp only [transformHtmlNode_v3]
    split_ifs with h1 h2 h3
    · simp [h1]
    · simp [h1, h2]
    · rcases h3 with h3 | h3
      · simp [h1, h2, h3, stripWs]
      · have hz : stripWs (sanitizeRenderedHtml base parsed) = [] :=
          List.length_eq_zero.mp (Nat.le_zero.mp h3)
        simp [h1, h2, hz]
    · push_neg at h3
      have hne : stripWs (sanitizeRenderedHtml base parsed) ≠ [] := by
        have := h3.2
        intro he
        rw [he] at this
        simp at this
      simp [h1, h2, hne]
  · intro value
    simp only [transformHtmlNode_v2, significantHtml_v2]
    split_ifs with h
    · simp [h]
    · simp [h]

/-- Witness for the amended C5: a small inline-tag node passes the current
gate, and a 120-character `<div>` block passes the older gate. -/
theorem html_extraction_gate_witness :
    (transformHtmlNode_v3 "file:".data "<em>x</em>".data
        [HNode.element "em".data [] [HNode.text "x".data]]).isSome = true
    ∧ (transformHtmlNode_v2 ("<div>".data ++ List.replicate 110 'x'
        ++ "</div>".data)).isSome = true := by
  constructor
  · refine (html_extraction_gate.1 "file:".data "<em>x</em>".data
      [HNode.element "em".data [] [HNode.text "x".data]]).mpr ⟨by decide, by decide, ?_⟩
    have hs : sanitizeChildren "file:".data
        [HNode.element "em".data [] [HNode.text "x".data]]
        = [HNode.element "em".data [] [HNode.text "x".data]] := by
      simp +decide [sanitizeChildren, sanitizeAttrs]
    simp +decide [sanitizeRenderedHtml, hs, serializeFragment, serializeNode,
      serializeAttrsStr, stripWs]
  · exact (html_extraction_gate.2 ("<div>".data ++ List.replicate 110 'x'
      ++ "</div>".data)).mpr (by decide)


/-! SVG post-processing claims. -/

/-- C6 counterexample: an inline `data:` URI in an unrecognized encoding
(`data:text/plain,blah.svg`) makes the task start `'ready'` with no
content in hand — not `'error'` as claimed. -/
theorem svg_unrecognized_data_counterexample :
    svgInitialStatus "data:text/plain,blah.svg".data = TStatus.ready
    ∧ svgInitialStatus "data:text/plain,blah.svg".data ≠ TStatus.error
    ∧ svgInitialContent "data:text/plain,blah.svg".data = none := by decide

/-- C6 (amended). A deferred SVG task starts `'ready'` exactly when its
source is a `data:` URI (whether or not the encoding is recognized) and
`'fetching'` otherwise (http/https sources fetched remotely, all other
sources read as local files); an unrecognized inline encoding leaves the
task `'ready'` with no decoded content, and its failure surfaces only when
the drain callback throws `'No SVG content available'`. -/
theorem svg_task_initial_status :
    (∀ src : JStr, jStartsWith src "data:".data = true →
      svgInitialStatus src = TStatus.ready)
    ∧ (∀ src : JStr, jStartsWith src "data:".data = false →
      svgInitialStatus src = TStatus.fetching ∧
      svgFetchKind src =
        some (if jStartsWith src "http://".data || jStartsWith src "https://".data
          then SvgFetchKind.remote else SvgFetchKind.localFile))
    ∧ (∀ src : JStr, jStartsWith src "data:".data = true →
      svgInitialContent src = none →
      svgInitialStatus src = TStatus.ready ∧
      (∀ render : SvgContent → Except JStr Unit,
        svgTaskCallback (svgInitialContent src) render
          = Except.error "No SVG content available".data)) := by
  refine ⟨?_, ?_, ?_⟩
  · intro src h
    simp [svgInitialStatus, h]
  · intro src h
    constructor
    · simp [svgInitialStatus, h]
    · simp [svgFetchKind, svgInitialStatus, h]
  · intro src h hc
    refine ⟨by simp [svgInitialStatus, h], ?_⟩
    intro render
    rw [hc]
    rfl

/-- Witness for the amended C6: the unrecognized inline URI starts
`'ready'` and its callback throws; a remote URL starts `'fetching'`. -/
theorem svg_task_initial_status_witness :
    (svgInitialStatus "data:text/plain,blah.svg".data = TStatus.ready
      ∧ (∀ render : SvgContent → Except JStr Unit,
        svgTaskCallback (svgInitialContent "data:text/plain,blah.svg".data) render
          = Except.error "No SVG content available".data))
    ∧ svgInitialStatus "https://x.test/a.svg".data = TStatus.fetching :=
  ⟨(svg_task_initial_status.2.2 "data:text/plain,blah.svg".data
      (by decide) (by decide)).imp_right (fun h => h),
   (svg_task_initial_status.2.1 "https://x.test/a.svg".data (by decide)).1⟩

theorem validMatches_le {html_len : Nat} :
    ∀ {ms : List (SvgMatch × JStr)} {p : Nat},
      validMatches p ms html_len = true → p ≤ html_len := by
  intro ms
  induction ms with
  | nil =>
    intro p h
    simpa [validMatches] using h
  | cons x rest ih =>
    intro p h
    obtain ⟨m, r⟩ := x
    simp only [validMatches, Bool.and_eq_true, decide_eq_true_eq] at h
    exact le_trans (le_trans h.1 (Nat.le_add_right _ _)) (ih h.2)

theorem spliceReverse_append (html : JStr) (l₁ l₂ : List (SvgMatch × JStr)) :
    spliceReverse html (l₁ ++ l₂) = spliceReverse (spliceReverse html l₁) l₂ := by
  induction l₁ generalizing html with
  | nil => rfl
  | cons x rest ih =>
    obtain ⟨m, r⟩ := x
    simp [spliceReverse, ih]

theorem take_splicedSpec (html : JStr) {ms : List (SvgMatch × JStr)} {p k : Nat}
    (hv : validMatches p ms html.length = true) (hk : k ≤ p) :
    (splicedSpec html 0 ms).take k = html.take k := by
  cases ms with
  | nil =>
    simp [splicedSpec]
  | cons x rest =>
    obtain ⟨m, r⟩ := x
    simp only [validMatches, Bool.and_eq_true, decide_eq_true_eq] at hv
    have hmn : m.index + m.len ≤ html.length := validMatches_le hv.2
    have hk1 : k ≤ (List.take m.index html).length := by
      rw [List.length_take]
      omega
    simp only [splicedSpec, List.drop_zero, List.append_assoc]
    rw [List.take_append_of_le_length hk1, List.take_take]
    congr 1
    omega

theorem drop_splicedSpec (html : JStr) {ms : List (SvgMatch × JStr)} {p e : Nat}
    (hv : validMatches p ms html.length = true) (he : e ≤ p) :
    (splicedSpec html 0 ms).drop e = splicedSpec html e ms := by
  cases ms with
  | nil =>
    simp [splicedSpec]
  | cons x rest =>
    obtain ⟨m, r⟩ := x
    simp only [validMatches, Bool.and_eq_true, decide_eq_true_eq] at hv
    have hmn : m.index + m.len ≤ html.length := validMatches_le hv.2
    have he1 : e ≤ (List.take m.index html).length := by
      rw [List.length_take]
      omega
    simp only [splicedSpec, List.drop_zero, List.append_assoc]
    rw [List.drop_append_of_le_length he1]

/-- C10. The substitution loop of `processSvgImages` changes only the
matched spans: for any well-formed match list, the output is exactly the
input's unmatched segments in their original order, with each matched span
replaced by exactly one placeholder (the reverse processing order keeps
the earlier offsets valid). -/
theorem svg_substitution_frame (html : JStr) (ms : List (SvgMatch × JStr))
    (hv : validMatches 0 ms html.length = true) :
    processSvgImagesSubst html ms = splicedSpec html 0 ms := by
  unfold processSvgImagesSubst
  induction ms with
  | nil => rfl
  | cons x rest ih =>
    obtain ⟨m, r⟩ := x
    have hv' := hv
    simp only [validMatches, Bool.and_eq_true, decide_eq_true_eq] at hv'
    have hrest0 : validMatches 0 rest html.length = true := by
      clear ih hv
      cases rest with
      | nil =>
        simp only [validMatches, decide_eq_true_eq]
        exact Nat.zero_le _
      | cons y t =>
        obtain ⟨my, ry⟩ := y
        have h2 := hv'.2
        simp only [validMatches, Bool.and_eq_true, decide_eq_true_eq] at h2 ⊢
        exact ⟨Nat.zero_le _, h2.2⟩
    rw [List.reverse_cons, spliceReverse_append, ih hrest0]
    show spliceAt (splicedSpec html 0 rest) m r = _
    unfold spliceAt
    rw [take_splicedSpec html hv'.2 (Nat.le_add_right m.index m.len),
        drop_splicedSpec html hv'.2 le_rfl]
    simp [splicedSpec]

/-- Witness for C10: a concrete two-match substitution. -/
theorem svg_substitution_frame_witness :
    processSvgImagesSubst "ab<img src=\"x.svg\">cd<img src=\"y.svg\">e".data
        [(⟨2, 17⟩, "[P1]".data), (⟨21, 17⟩, "[P2]".data)]
      = "ab[P1]cd[P2]e".data := by
  have h := svg_substitution_frame "ab<img src=\"x.svg\">cd<img src=\"y.svg\">e".data
    [(⟨2, 17⟩, "[P1]".data), (⟨21, 17⟩, "[P2]".data)] (by decide)
  rw [h]
  decide


/-! Cache-proxy and display-width claims. -/

/-- C8. The cache proxy never propagates a failure: whenever the
storage exchange fails or reports an error, `get` returns `null` and
`set` returns `false`, so the caller proceeds as with a cold cache
(the model is a total function — nothing is thrown). -/
theorem cache_proxy_degrades_gracefully {V : Type} :
    ∀ o : RuntimeOutcome (CacheResponse V),
      storageFailure o → proxyGet o = none ∧ proxySet o = false := by
  intro o h
  cases o with
  | reject m => exact ⟨rfl, rfl⟩
  | resolve r =>
    cases r with
    | none => exact ⟨rfl, rfl⟩
    | some resp =>
      have he : errorTruthy resp.error = true := h
      simp [proxyGet, proxySet, he]

/-- Witness for C8: a rejected exchange and an error-bearing response. -/
theorem cache_proxy_degrades_gracefully_witness :
    (proxyGet (RuntimeOutcome.reject "boom".data : RuntimeOutcome (CacheResponse Nat))
        = none
      ∧ proxySet (RuntimeOutcome.reject "boom".data : RuntimeOutcome (CacheResponse Nat))
        = false)
    ∧ (proxyGet (RuntimeOutcome.resolve
          (some ({ error := some "fail".data, result := some 7, success := true }
            : CacheResponse Nat))) = none
      ∧ proxySet (RuntimeOutcome.resolve
          (some ({ error := some "fail".data, result := some 7, success := true }
            : CacheResponse Nat))) = false) :=
  ⟨cache_proxy_degrades_gracefully _ trivial,
   cache_proxy_degrades_gracefully _ (show errorTruthy (some "fail".data) = true by decide)⟩

/-- C9. Every successful rasterization splice (diagram, HTML block, and
SVG alike) displays the image at `Math.round(width / 4)` — the backend's
native width times the one-quarter display-scale fraction, rounded to the
nearest integer. -/
theorem display_width_quarter_rounded :
    ∀ width : ℕ,
      mermaidDisplayWidth width = round ((width : ℚ) / 4)
      ∧ htmlDisplayWidth width = round ((width : ℚ) / 4)
      ∧ svgDisplayWidth width = round ((width : ℚ) / 4) := by
  intro w
  refine ⟨?_, ?_, ?_⟩ <;>
    simp [mermaidDisplayWidth, htmlDisplayWidth, svgDisplayWidth, jsRound,
      round_eq]


/-! Cache-key claims. -/

theorem length_toBytesBE (k n : Nat) : (toBytesBE k n).length = k := by
  simp [toBytesBE]

theorem mem_toBytesBE_lt {k n b : Nat} (h : b ∈ toBytesBE k n) : b < 256 := by
  simp only [toBytesBE, List.mem_map, List.mem_reverse, List.mem_range] at h
  obtain ⟨i, _, rfl⟩ := h
  exact Nat.mod_lt _ (by omega)

theorem compressStep_length (st : List Nat) (k w : Nat) :
    (compressStep st k w).length = st.length := by
  unfold compressStep
  split <;> simp

theorem foldl_compressStep_length (l : List (Nat × Nat)) (st : List Nat) :
    (l.foldl (fun st kw => compressStep st kw.1 kw.2) st).length = st.length := by
  induction l generalizing st with
  | nil => rfl
  | cons x rest ih =>
    rw [List.foldl_cons, ih, compressStep_length]

theorem compressBlock_length (h block : List Nat) (hh : h.length = 8) :
    (compressBlock h block).length = 8 := by
  simp only [compressBlock]
  rw [List.length_map, List.length_zip, foldl_compressStep_length, hh]
  rfl

theorem foldl_compressBlock_length (blocks : List (List Nat)) (h : List Nat)
    (hh : h.length = 8) : (blocks.foldl compressBlock h).length = 8 := by
  induction blocks generalizing h with
  | nil => exact hh
  | cons b rest ih =>
    rw [List.foldl_cons]
    exact ih _ (compressBlock_length _ _ hh)

theorem flatMap_const_length {α β : Type} (k : Nat) (f : α → List β)
    (hf : ∀ a, (f a).length = k) :
    ∀ l : List α, (l.flatMap f).length = k * l.length := by
  intro l
  induction l with
  | nil => simp
  | cons a rest ih =>
    rw [List.flatMap_cons, List.length_append, hf, ih, List.length_cons]
    ring

theorem sha256Bytes_length (msg : List Nat) : (sha256Bytes msg).length = 32 := by
  unfold sha256Bytes
  rw [flatMap_const_length 4 _ (fun a => length_toBytesBE 4 a),
    foldl_compressBlock_length _ H256 (by rfl)]

theorem mem_sha256Bytes_lt {msg : List Nat} {b : Nat} (h : b ∈ sha256Bytes msg) :
    b < 256 := by
  unfold sha256Bytes at h
  rw [List.mem_flatMap] at h
  obtain ⟨w, _, hb⟩ := h
  exact mem_toBytesBE_lt hb

theorem hexDigit_mem : ∀ n, n < 16 → hexDigit n ∈ "0123456789abcdef".data := by
  decide

/-- The hash half of the key really is a 64-character lowercase-hex digest. -/
theorem calculateHash_shape (text : JStr) :
    (calculateHash text).length = 64 ∧
    ∀ c ∈ calculateHash text, c ∈ "0123456789abcdef".data := by
  constructor
  · unfold calculateHash
    rw [flatMap_const_length 2 byteToHex (fun _ => rfl), sha256Bytes_length]
  · intro c hc
    unfold calculateHash at hc
    rw [List.mem_flatMap] at hc
    obtain ⟨b, hb, hcb⟩ := hc
    have hblt := mem_sha256Bytes_lt hb
    simp only [byteToHex, List.mem_cons, List.not_mem_nil, or_false] at hcb
    rcases hcb with rfl | rfl
    · exact hexDigit_mem _ (by omega)
    · exact hexDigit_mem _ (Nat.mod_lt _ (by omega))

/-- C7. `generateKey` is deterministic and kind-sensitive: it returns the
lowercase hex SHA-256 digest of the content followed by `_` and the kind
tag (a fixed function of its arguments, 64 hex characters plus the
suffix), and for the same content two different kind tags always produce
distinct keys. -/
theorem cache_key_deterministic_kind_sensitive :
    (∀ content ktype : JStr,
      generateKey content ktype = calculateHash content ++ "_".data ++ ktype)
    ∧ (∀ content : JStr, (calculateHash content).length = 64 ∧
        ∀ c ∈ calculateHash content, c ∈ "0123456789abcdef".data)
    ∧ (∀ content k1 k2 : JStr, k1 ≠ k2 →
      generateKey content k1 ≠ generateKey content k2) := by
  refine ⟨fun _ _ => rfl, calculateHash_shape, ?_⟩
  intro content k1 k2 hne heq
  unfold generateKey at heq
  exact hne (List.append_cancel_left heq)

/-- Witness for C7: the same content under the kinds `diagram` and
`html-block` yields distinct cache keys. -/
theorem cache_key_deterministic_kind_sensitive_witness :
    generateKey "abc".data "diagram".data ≠ generateKey "abc".data "html-block".data :=
  cache_key_deterministic_kind_sensitive.2.2 "abc".data "diagram".data
    "html-block".data (by decide)

end MarkdownViewer
